import Mathlib

/-
Verification of the user-lifecycle core of `packages/cli/src/controllers/users.controller.ts`:
the `deleteUser` operation (ownership transfer path and cascade-delete path) and the
`changeRole` operation (ordered authorization guards). The relational store is embedded as
explicit lists of records; each TypeORM call of the source is translated to the corresponding
pure list transformation, and the transactional bodies additionally emit a trace of store
operations so that ordering properties can be stated.
-/

namespace UsersCtrl

/-- A (scope, name) role pair, as carried by `User.globalRole` and by the request body
field `newRole`. -/
structure Role where
  scope : String
  name : String
deriving DecidableEq, Repr

/-- A row of the `User` table, restricted to the fields this controller reads:
`id`, `globalRole` and `isPending`. -/
structure UserRec where
  id : String
  globalRole : Role
  isPending : Bool
deriving DecidableEq, Repr

/-- A row of the `SharedWorkflow` ownership-link table: `userId`, `workflowId`, `roleId`. -/
structure SharedWorkflowLink where
  userId : String
  workflowId : String
  roleId : String
deriving DecidableEq, Repr

/-- A row of the `SharedCredentials` ownership-link table: `userId`, `credentialsId`,
`roleId`. -/
structure SharedCredentialLink where
  userId : String
  credentialsId : String
  roleId : String
deriving DecidableEq, Repr

/-- A row of the workflow table, restricted to the fields the controller reads
(`id` and the `active` runtime flag). -/
structure WorkflowRec where
  id : String
  active : Bool
deriving DecidableEq, Repr

/-- A row of the credentials table (only its `id` is relevant here). -/
structure CredentialRec where
  id : String
deriving DecidableEq, Repr

/-- A row of the `AuthIdentity` table bound to a user. -/
structure AuthIdentityRec where
  userId : String
  providerId : String
deriving DecidableEq, Repr

/-- The relational store visible to this controller. -/
structure Store where
  users : List UserRec
  workflows : List WorkflowRec
  credentials : List CredentialRec
  sharedWorkflows : List SharedWorkflowLink
  sharedCredentials : List SharedCredentialLink
  authIdentities : List AuthIdentityRec
deriving DecidableEq, Repr

/-- Errors thrown by the controller. `badRequest`, `unauthorized` and `notFound` carry the
message of the corresponding `BadRequestError` / `UnauthorizedError` / `NotFoundError`;
`externalHookError` models a rejection propagated out of the awaited
`externalHooks.run` call; `workflowDeactivationError` models a rejection of
`activeWorkflowRunner.remove` aborting the enclosing transaction; `internalCrash` models a
runtime TypeError on the unchecked `as User` cast (unreachable when user ids are unique). -/
inductive ApiError where
  | badRequest (msg : String)
  | unauthorized (msg : String)
  | notFound (msg : String)
  | externalHookError
  | workflowDeactivationError
  | internalCrash
deriving DecidableEq, Repr

/-- Message of `UsersController.ERROR_MESSAGES.CHANGE_ROLE.NO_MEMBER`. -/
def NO_MEMBER : String := "Member cannot change role for any user"

/-- Message of `ERROR_MESSAGES.CHANGE_ROLE.MISSING_NEW_ROLE_KEY`. -/
def MISSING_NEW_ROLE_KEY : String := "Expected `newRole` to exist"

/-- Message of `ERROR_MESSAGES.CHANGE_ROLE.MISSING_NEW_ROLE_VALUE`. -/
def MISSING_NEW_ROLE_VALUE : String := "Expected `newRole` to have `name` and `scope`"

/-- Message of `ERROR_MESSAGES.CHANGE_ROLE.NO_USER`. -/
def NO_USER : String := "Target user not found"

/-- Message of `ERROR_MESSAGES.CHANGE_ROLE.NO_ADMIN_ON_OWNER`. -/
def NO_ADMIN_ON_OWNER : String := "Admin cannot change role on global owner"

/-- Message of `ERROR_MESSAGES.CHANGE_ROLE.NO_OWNER_ON_OWNER`. -/
def NO_OWNER_ON_OWNER : String := "Owner cannot change role on global owner"

/-- Message of `ERROR_MESSAGES.CHANGE_ROLE.NO_USER_TO_OWNER`. -/
def NO_USER_TO_OWNER : String := "Cannot promote user to global owner"

/-- Message of the self-deletion `BadRequestError` in `deleteUser`. -/
def CANNOT_DELETE_OWN_USER : String := "Cannot delete your own user"

/-- Message of the `BadRequestError` thrown when the transferee equals the deletion target. -/
def TRANSFEREE_SAME_AS_TARGET : String :=
  "Request to delete a user failed because the user to delete and the transferee are the same user"

/-- Message of the `NotFoundError` thrown when the batched id lookup does not resolve. -/
def DELETE_IDS_NOT_FOUND : String :=
  "Request to delete a user failed because the ID of the user to delete and/or the ID of the transferee were not found in DB"

/-- Telemetry payload assembled in `deleteUser` (`ITelemetryUserDeletionData`). -/
structure TelemetryData where
  user_id : String
  target_user_old_status : String
  target_user_id : String
  migration_strategy : String
  migration_user_id : Option String
deriving DecidableEq, Repr

/-- Trace items for the store operations issued inside the two deletion transactions,
in the order the source issues them. -/
inductive Event where
  | deleteTransfereeWorkflowLinks (transfereeId : String) (workflowIds : List String)
  | transferWorkflowOwnership (fromUserId toUserId : String)
  | deleteTransfereeCredentialLinks (transfereeId : String) (credentialIds : List String)
  | transferCredentialOwnership (fromUserId toUserId : String)
  | deleteAuthIdentities (userId : String)
  | deleteUserRecord (userId : String)
  | deactivateWorkflow (workflowId : String)
  | removeWorkflows (workflowIds : List String)
  | removeCredentials (credentialIds : List String)
deriving DecidableEq, Repr

/-- Request-level and collaborator-level inputs of one `deleteUser` call: the
authenticated acting user (`req.user`), the path parameter (`req.params.id`), the query
parameter (`req.query.transferId`), the ids of the two owner link-roles returned by
`roleService.findWorkflowOwnerRole` / `findCredentialOwnerRole`, and three oracles saying
which external side-effect calls would reject: `deactivationFails w` for
`activeWorkflowRunner.remove(w)`, `internalHookFails` for `internalHooks.onUserDeletion`
(whose promise the source discards with `void`, so the flag is never observable), and
`externalHookFails` for the awaited `externalHooks.run` call. -/
structure DeleteEnv where
  actingUser : UserRec
  idToDelete : String
  transferId : Option String
  workflowOwnerRoleId : String
  credentialOwnerRoleId : String
  deactivationFails : String → Bool
  internalHookFails : Bool
  externalHookFails : Bool

/-- Observable outcome of one `deleteUser` call: the store after the call (equal to the
input store when the transaction did not commit), the trace of transactional store
operations that were issued, the telemetry payload handed to
`internalHooks.onUserDeletion` (`none` when the call failed before that point), and the
response or thrown error. -/
structure DeleteOutcome where
  store : Store
  events : List Event
  telemetry : Option TelemetryData
  result : Except ApiError Bool
deriving Repr

/-- Lookup list built for `userService.findMany({ where: { id: In([transferId, idToDelete]) } })`.
An absent `transferId` is `undefined` inside the `In` list and matches no row. -/
def lookupIds (transferId : Option String) (idToDelete : String) : List String :=
  match transferId with
  | some t => [t, idToDelete]
  | none => [idToDelete]

/-- The batched `userService.findMany` id lookup. -/
def findManyByIds (st : Store) (ids : List String) : List UserRec :=
  st.users.filter (fun u => ids.contains u.id)

/-- Effect of `transactionManager.delete(User, { id })`. The store cascade also removes
the remaining ownership links and auth identities of that user, per the source comment
"This will remove all shared workflows and credentials not owned". -/
def deleteUserRecord (st : Store) (uid : String) : Store :=
  { st with
    users := st.users.filter (fun u => !(u.id == uid))
    sharedWorkflows := st.sharedWorkflows.filter (fun l => !(l.userId == uid))
    sharedCredentials := st.sharedCredentials.filter (fun l => !(l.userId == uid))
    authIdentities := st.authIdentities.filter (fun a => !(a.userId == uid)) }

/-- Body of the transfer-path transaction of `deleteUser`: collect the workflow ids the
target owns, delete any pre-existing links of the transferee on those ids, re-point the
owner links of the target to the transferee, repeat for credentials, delete the auth
identities of the target, delete the target user row. Returns the committed store and the
ordered trace of issued operations. -/
def transferOwnershipTx (env : DeleteEnv) (targetId transfereeId : String) (st : Store) :
    Store × List Event :=
  let sharedWorkflowIds := (st.sharedWorkflows.filter
    (fun l => l.userId == targetId && l.roleId == env.workflowOwnerRoleId)).map
    (fun l => l.workflowId)
  let sw1 := st.sharedWorkflows.filter
    (fun l => !(l.userId == transfereeId && sharedWorkflowIds.contains l.workflowId))
  let st1 := { st with sharedWorkflows := sw1 }
  let sw2 := st1.sharedWorkflows.map
    (fun l => if l.userId == targetId && l.roleId == env.workflowOwnerRoleId
              then { l with userId := transfereeId } else l)
  let st2 := { st1 with sharedWorkflows := sw2 }
  let sharedCredentialIds := (st2.sharedCredentials.filter
    (fun l => l.userId == targetId && l.roleId == env.credentialOwnerRoleId)).map
    (fun l => l.credentialsId)
  let sc1 := st2.sharedCredentials.filter
    (fun l => !(l.userId == transfereeId && sharedCredentialIds.contains l.credentialsId))
  let st3 := { st2 with sharedCredentials := sc1 }
  let sc2 := st3.sharedCredentials.map
    (fun l => if l.userId == targetId && l.roleId == env.credentialOwnerRoleId
              then { l with userId := transfereeId } else l)
  let st4 := { st3 with sharedCredentials := sc2 }
  let ai1 := st4.authIdentities.filter (fun a => !(a.userId == targetId))
  let st5 := { st4 with authIdentities := ai1 }
  let st6 := deleteUserRecord st5 targetId
  (st6,
   [Event.deleteTransfereeWorkflowLinks transfereeId sharedWorkflowIds,
    Event.transferWorkflowOwnership targetId transfereeId,
    Event.deleteTransfereeCredentialLinks transfereeId sharedCredentialIds,
    Event.transferCredentialOwnership targetId transfereeId,
    Event.deleteAuthIdentities targetId,
    Event.deleteUserRecord targetId])

/-- Body of the cascade-path transaction of `deleteUser`: load the owned workflow and
credential rows (fetched just before the transaction from the same store), deactivate each
owned workflow that is currently active, then remove the owned workflows, remove the owned
credentials, delete the auth identities of the target and delete the target user row.
When some deactivation call rejects, the transaction aborts: the committed store is the
input store and the error is reported (the deactivation side effects themselves are
external and appear in the trace). -/
def cascadeDeleteTx (env : DeleteEnv) (targetId : String) (st : Store) :
    Store × List Event × Option ApiError :=
  let ownedWorkflowLinks := st.sharedWorkflows.filter
    (fun l => l.userId == targetId && l.roleId == env.workflowOwnerRoleId)
  let ownedWorkflows := ownedWorkflowLinks.filterMap
    (fun l => st.workflows.find? (fun w => w.id == l.workflowId))
  let ownedCredentialLinks := st.sharedCredentials.filter
    (fun l => l.userId == targetId && l.roleId == env.credentialOwnerRoleId)
  let ownedCredentials := ownedCredentialLinks.filterMap
    (fun l => st.credentials.find? (fun c => c.id == l.credentialsId))
  let activeOnes := ownedWorkflows.filter (fun w => w.active)
  let deactEvents := activeOnes.map (fun w => Event.deactivateWorkflow w.id)
  if activeOnes.any (fun w => env.deactivationFails w.id) then
    (st, deactEvents, some ApiError.workflowDeactivationError)
  else
    let wfIds := ownedWorkflows.map (fun w => w.id)
    let credIds := ownedCredentials.map (fun c => c.id)
    let wfs1 := st.workflows.filter (fun w => !(wfIds.contains w.id))
    let swl1 := st.sharedWorkflows.filter (fun l => !(wfIds.contains l.workflowId))
    let st1 := { st with workflows := wfs1, sharedWorkflows := swl1 }
    let crs1 := st1.credentials.filter (fun c => !(credIds.contains c.id))
    let scl1 := st1.sharedCredentials.filter (fun l => !(credIds.contains l.credentialsId))
    let st2 := { st1 with credentials := crs1, sharedCredentials := scl1 }
    let ai1 := st2.authIdentities.filter (fun a => !(a.userId == targetId))
    let st3 := { st2 with authIdentities := ai1 }
    let st4 := deleteUserRecord st3 targetId
    (st4,
     deactEvents ++
      [Event.removeWorkflows wfIds, Event.removeCredentials credIds,
       Event.deleteAuthIdentities targetId, Event.deleteUserRecord targetId],
     none)

/-- The `deleteUser` route handler. Guards in source order: self-deletion check,
transferee-equals-target check, batched id lookup; then the telemetry payload is
assembled and one of the two transactional paths runs; afterwards the telemetry hook is
fired with its promise discarded (`void`), and the external `user.deleted` hook is awaited,
so a rejection there propagates to the caller after the transaction has committed. -/
def deleteUser (env : DeleteEnv) (st : Store) : DeleteOutcome :=
  let idToDelete := env.idToDelete
  if env.actingUser.id == idToDelete then
    ⟨st, [], none, Except.error (ApiError.badRequest CANNOT_DELETE_OWN_USER)⟩
  else if env.transferId == some idToDelete then
    ⟨st, [], none, Except.error (ApiError.badRequest TRANSFEREE_SAME_AS_TARGET)⟩
  else
    let users := findManyByIds st (lookupIds env.transferId idToDelete)
    if users.length == 0 || (env.transferId.isSome && users.length != 2) then
      ⟨st, [], none, Except.error (ApiError.notFound DELETE_IDS_NOT_FOUND)⟩
    else
      match users.find? (fun u => u.id == idToDelete) with
      | none => ⟨st, [], none, Except.error ApiError.internalCrash⟩
      | some userToDelete =>
        let telemetryData : TelemetryData :=
          { user_id := env.actingUser.id
            target_user_old_status := if userToDelete.isPending then "invited" else "active"
            target_user_id := idToDelete
            migration_strategy := if env.transferId.isSome then "transfer_data" else "delete_data"
            migration_user_id := env.transferId }
        match env.transferId with
        | some transferId =>
          match users.find? (fun u => u.id == transferId) with
          | none => ⟨st, [], none, Except.error ApiError.internalCrash⟩
          | some transferee =>
            let committed := transferOwnershipTx env userToDelete.id transferee.id st
            if env.externalHookFails then
              ⟨committed.1, committed.2, some telemetryData,
                Except.error ApiError.externalHookError⟩
            else
              ⟨committed.1, committed.2, some telemetryData, Except.ok true⟩
        | none =>
          match cascadeDeleteTx env userToDelete.id st with
          | (_, events, some e) => ⟨st, events, none, Except.error e⟩
          | (committed, events, none) =>
            if env.externalHookFails then
              ⟨committed, events, some telemetryData, Except.error ApiError.externalHookError⟩
            else
              ⟨committed, events, some telemetryData, Except.ok true⟩

/-- Truthiness of an optional string field, as tested by `!newRole.name` and
`!newRole.scope` in the source (absent and empty string are both falsy). -/
def truthyStr (s : Option String) : Bool :=
  match s with
  | none => false
  | some v => v != ""

/-- The `newRole` object of the `changeRole` request body; `name` and `scope` may each be
absent. -/
structure NewRoleBody where
  name : Option String
  scope : Option String
deriving DecidableEq, Repr

/-- Modelled from the spec: the Role Directory collaborator
`findCachedRole(scope, name) → Role` (the source calls `roleService.findCached`, which is
not part of this file set); per the interface contract it resolves the Role entity for the
given (scope, name) pair. -/
def findCachedRole (scope name : String) : Role := ⟨scope, name⟩

/-- The `changeRole` route handler, translated guard by guard in source order. The final
mutation is `userService.update(targetUser.id, { globalRole: roleToSet })`. Returns the
store after the call together with the response or thrown error. -/
def changeRole (actingUser : UserRec) (targetUserId : String) (newRole : Option NewRoleBody)
    (st : Store) : Store × Except ApiError Bool :=
  if actingUser.globalRole.scope == "global" && actingUser.globalRole.name == "member" then
    (st, Except.error (ApiError.unauthorized NO_MEMBER))
  else
    match newRole with
    | none => (st, Except.error (ApiError.badRequest MISSING_NEW_ROLE_KEY))
    | some nr =>
      if !truthyStr nr.name || !truthyStr nr.scope then
        (st, Except.error (ApiError.badRequest MISSING_NEW_ROLE_VALUE))
      else if nr.scope == some "global" && nr.name == some "owner" then
        (st, Except.error (ApiError.unauthorized NO_USER_TO_OWNER))
      else
        match st.users.find? (fun u => u.id == targetUserId) with
        | none => (st, Except.error (ApiError.notFound NO_USER))
        | some targetUser =>
          if actingUser.globalRole.scope == "global" && actingUser.globalRole.name == "admin" &&
              targetUser.globalRole.scope == "global" && targetUser.globalRole.name == "owner" then
            (st, Except.error (ApiError.unauthorized NO_ADMIN_ON_OWNER))
          else if actingUser.globalRole.scope == "global" &&
              actingUser.globalRole.name == "owner" &&
              targetUser.globalRole.scope == "global" && targetUser.globalRole.name == "owner" then
            (st, Except.error (ApiError.unauthorized NO_OWNER_ON_OWNER))
          else
            let roleToSet := findCachedRole (nr.scope.getD "") (nr.name.getD "")
            ({ st with users := st.users.map (fun u =>
                if u.id == targetUser.id then { u with globalRole := roleToSet } else u) },
             Except.ok true)

/-- Helper for the spec-side guard list: whether the target user currently holds role
(global, owner), looked up by id. -/
def targetIsGlobalOwner (st : Store) (targetUserId : String) : Bool :=
  match st.users.find? (fun u => u.id == targetUserId) with
  | none => false
  | some u => u.globalRole.scope == "global" && u.globalRole.name == "owner"

/-- Modelled from the spec: the ordered guard table of section 4.2, as a list of
(failure condition, failure outcome) pairs. A field whose value is absent or empty is
treated as missing. -/
def specGuardList (actingUser : UserRec) (targetUserId : String)
    (newRole : Option NewRoleBody) (st : Store) : List (Bool × ApiError) :=
  [(actingUser.globalRole.scope == "global" && actingUser.globalRole.name == "member",
    ApiError.unauthorized NO_MEMBER),
   (newRole.isNone, ApiError.badRequest MISSING_NEW_ROLE_KEY),
   (!truthyStr (newRole.bind (fun nr => nr.name)) ||
      !truthyStr (newRole.bind (fun nr => nr.scope)),
    ApiError.badRequest MISSING_NEW_ROLE_VALUE),
   ((newRole.bind (fun nr => nr.scope)) == some "global" &&
      (newRole.bind (fun nr => nr.name)) == some "owner",
    ApiError.unauthorized NO_USER_TO_OWNER),
   ((st.users.find? (fun u => u.id == targetUserId)).isNone, ApiError.notFound NO_USER),
   (actingUser.globalRole.scope == "global" && actingUser.globalRole.name == "admin" &&
      targetIsGlobalOwner st targetUserId,
    ApiError.unauthorized NO_ADMIN_ON_OWNER),
   (actingUser.globalRole.scope == "global" && actingUser.globalRole.name == "owner" &&
      targetIsGlobalOwner st targetUserId,
    ApiError.unauthorized NO_OWNER_ON_OWNER)]

/-- First failing guard of an ordered guard list, if any. -/
def firstFailure : List (Bool × ApiError) → Option ApiError
  | [] => none
  | (cond, e) :: rest => if cond then some e else firstFailure rest

/-- Modelled from the spec: evaluate the seven guards in order; the first failing guard
determines the error; when all pass, resolve the Role for (newRole.scope, newRole.name)
through the cached lookup and update the role of the target user as a single mutation. -/
def changeRoleSpec (actingUser : UserRec) (targetUserId : String)
    (newRole : Option NewRoleBody) (st : Store) : Store × Except ApiError Bool :=
  match firstFailure (specGuardList actingUser targetUserId newRole st) with
  | some e => (st, Except.error e)
  | none =>
    let roleToSet := findCachedRole ((newRole.bind (fun nr => nr.scope)).getD "")
      ((newRole.bind (fun nr => nr.name)).getD "")
    ({ st with users := st.users.map (fun u =>
        if u.id == targetUserId then { u with globalRole := roleToSet } else u) },
     Except.ok true)

/-- Whether a user record holds role (global, owner). -/
def isGlobalOwnerUser (u : UserRec) : Bool :=
  u.globalRole.scope == "global" && u.globalRole.name == "owner"

/-- Number of user records holding role (global, owner). -/
def globalOwnerCount (st : Store) : Nat :=
  st.users.countP isGlobalOwnerUser

/-- The uniqueness invariant: at most one user record holds role (global, owner). -/
def AtMostOneOwner (st : Store) : Prop :=
  globalOwnerCount st ≤ 1

instance (st : Store) : Decidable (AtMostOneOwner st) := by
  unfold AtMostOneOwner; infer_instance

/-- Concrete transfer scenario: the target "t" owns workflows "w1" and "w2", the
transferee "x" already holds a shared link on "w1". -/
def transferScenarioStore : Store :=
  { users := [⟨"t", ⟨"global", "member"⟩, false⟩, ⟨"x", ⟨"global", "member"⟩, false⟩]
    workflows := [⟨"w1", false⟩, ⟨"w2", false⟩]
    credentials := []
    sharedWorkflows := [⟨"t", "w1", "wo"⟩, ⟨"t", "w2", "wo"⟩, ⟨"x", "w1", "sh"⟩]
    sharedCredentials := []
    authIdentities := [⟨"t", "ldap"⟩] }

/-- Request environment for the concrete transfer scenario. -/
def transferScenarioEnv : DeleteEnv :=
  { actingUser := ⟨"adm", ⟨"global", "owner"⟩, false⟩
    idToDelete := "t"
    transferId := some "x"
    workflowOwnerRoleId := "wo"
    credentialOwnerRoleId := "co"
    deactivationFails := fun _ => false
    internalHookFails := false
    externalHookFails := false }

/-- Concrete cascade scenario: the target "t" owns one active workflow "w1" and one
credential "c1"; no transferee. -/
def cascadeScenarioStore : Store :=
  { users := [⟨"t", ⟨"global", "member"⟩, false⟩]
    workflows := [⟨"w1", true⟩]
    credentials := [⟨"c1"⟩]
    sharedWorkflows := [⟨"t", "w1", "wo"⟩]
    sharedCredentials := [⟨"t", "c1", "co"⟩]
    authIdentities := [] }

/-- Request environment for the concrete cascade scenario. -/
def cascadeScenarioEnv : DeleteEnv :=
  { actingUser := ⟨"adm", ⟨"global", "owner"⟩, false⟩
    idToDelete := "t"
    transferId := none
    workflowOwnerRoleId := "wo"
    credentialOwnerRoleId := "co"
    deactivationFails := fun _ => false
    internalHookFails := false
    externalHookFails := false }

/-- Workflow rows owned by user `t` through links with the given owner link-role, as
loaded (with the workflow relation) just before the cascade transaction. -/
def ownedWorkflowsOf (st : Store) (t roleId : String) : List WorkflowRec :=
  (st.sharedWorkflows.filter (fun l => l.userId == t && l.roleId == roleId)).filterMap
    (fun l => st.workflows.find? (fun w => w.id == l.workflowId))

/-- Credential rows owned by user `t` through links with the given owner link-role. -/
def ownedCredentialsOf (st : Store) (t roleId : String) : List CredentialRec :=
  (st.sharedCredentials.filter (fun l => l.userId == t && l.roleId == roleId)).filterMap
    (fun l => st.credentials.find? (fun c => c.id == l.credentialsId))

/-- The owned workflow rows that are currently active (the ones deactivated before
removal). -/
def activeOwnedWorkflowsOf (st : Store) (t roleId : String) : List WorkflowRec :=
  (ownedWorkflowsOf st t roleId).filter (fun w => w.active)

/-- Counting with a key-equality predicate over a list whose keys are distinct yields at
most one hit. -/
theorem countP_beq_le_one_of_nodup_map {α β : Type} [BEq β] [LawfulBEq β] (key : α → β)
    (l : List α) (h : (l.map key).Nodup) (k : β) :
    l.countP (fun x => key x == k) ≤ 1 := by
  induction l with
  | nil => simp
  | cons a t ih =>
    rw [List.map_cons, List.nodup_cons] at h
    rw [List.countP_cons]
    by_cases hk : (key a == k) = true
    · have hka : key a = k := eq_of_beq hk
      have hz : t.countP (fun x => key x == k) = 0 := by
        rw [List.countP_eq_zero]
        intro x hx hbx
        exact h.1 (by
          rw [hka, ← eq_of_beq hbx]
          exact List.mem_map_of_mem (fun y => key y) hx)
      simp [hk, hz]
    · simp only [hk, Bool.false_eq_true, if_false, Nat.add_zero]
      exact ih h.2

/-- Counting with a key-equality predicate over a list with distinct keys that contains a
hit yields exactly one. -/
theorem countP_beq_eq_one_of_nodup_map {α β : Type} [BEq β] [LawfulBEq β] (key : α → β)
    (l : List α) (h : (l.map key).Nodup) (a : α) (ha : a ∈ l) (k : β) (hk : key a = k) :
    l.countP (fun x => key x == k) = 1 := by
  have hle := countP_beq_le_one_of_nodup_map key l h k
  have hpos : 0 < l.countP (fun x => key x == k) := by
    rw [List.countP_pos_iff]
    exact ⟨a, ha, by rw [hk]; exact beq_self_eq_true k⟩
  omega

/-- Counting a disjunction of two pointwise-exclusive predicates splits into a sum. -/
theorem countP_or_disjoint {α : Type} (l : List α) (p q : α → Bool)
    (h : ∀ x ∈ l, ¬(p x = true ∧ q x = true)) :
    l.countP (fun x => p x || q x) = l.countP p + l.countP q := by
  induction l with
  | nil => simp
  | cons a t ih =>
    rw [List.countP_cons, List.countP_cons, List.countP_cons,
      ih (fun x hx => h x (List.mem_cons_of_mem a hx))]
    have := h a (List.mem_cons_self a t)
    cases hp : p a <;> cases hq : q a <;> simp [hp, hq] at this ⊢ <;> omega

/-- CLAIM C5: for every deleteUser request whose target id equals the id of the acting
user, the outcome is the self-deletion BadRequestError, with the store unchanged, no
transactional operation issued, and no telemetry emitted. -/
theorem deleteUser_self_deletion_forbidden (env : DeleteEnv) (st : Store)
    (h : env.actingUser.id = env.idToDelete) :
    deleteUser env st =
      ⟨st, [], none, Except.error (ApiError.badRequest CANNOT_DELETE_OWN_USER)⟩ := by
  unfold deleteUser
  simp [h]

/-- Witness for C5 at a concrete input. -/
theorem deleteUser_self_deletion_forbidden_witness :
    (⟨"u1", ⟨"global", "owner"⟩, false⟩ : UserRec).id = "u1" ∧
    deleteUser
      { actingUser := ⟨"u1", ⟨"global", "owner"⟩, false⟩
        idToDelete := "u1"
        transferId := none
        workflowOwnerRoleId := "wo"
        credentialOwnerRoleId := "co"
        deactivationFails := fun _ => false
        internalHookFails := false
        externalHookFails := false }
      ⟨[⟨"u1", ⟨"global", "owner"⟩, false⟩], [], [], [], [], []⟩ =
      ⟨⟨[⟨"u1", ⟨"global", "owner"⟩, false⟩], [], [], [], [], []⟩, [], none,
        Except.error (ApiError.badRequest CANNOT_DELETE_OWN_USER)⟩ :=
  ⟨rfl, deleteUser_self_deletion_forbidden _ _ rfl⟩

/-- Counterexample for C6 as stated: when the transferee, the target and the acting user
all coincide, the request does satisfy the premise of C6 (a transferee is given and it
equals the target id), yet the outcome is the self-deletion error, not the
transferee-equals-target error. -/
theorem deleteUser_invalid_transferee_counterexample :
    (deleteUser
      { actingUser := ⟨"u1", ⟨"global", "owner"⟩, false⟩
        idToDelete := "u1"
        transferId := some "u1"
        workflowOwnerRoleId := "wo"
        credentialOwnerRoleId := "co"
        deactivationFails := fun _ => false
        internalHookFails := false
        externalHookFails := false }
      ⟨[⟨"u1", ⟨"global", "owner"⟩, false⟩], [], [], [], [], []⟩).result =
      Except.error (ApiError.badRequest CANNOT_DELETE_OWN_USER) ∧
    ApiError.badRequest CANNOT_DELETE_OWN_USER ≠
      ApiError.badRequest TRANSFEREE_SAME_AS_TARGET := by
  constructor
  · rfl
  · intro hcontra
    simp [CANNOT_DELETE_OWN_USER, TRANSFEREE_SAME_AS_TARGET] at hcontra

/-- CLAIM C6 (amended: the self-deletion guard runs first, so the target must also differ
from the acting user): when a transferee is given, it equals the target id, and the target
differs from the acting user, the outcome is the transferee-equals-target BadRequestError
with the store unchanged and nothing issued. -/
theorem deleteUser_invalid_transferee (env : DeleteEnv) (st : Store)
    (hself : env.actingUser.id ≠ env.idToDelete)
    (h : env.transferId = some env.idToDelete) :
    deleteUser env st =
      ⟨st, [], none, Except.error (ApiError.badRequest TRANSFEREE_SAME_AS_TARGET)⟩ := by
  unfold deleteUser
  simp [h, hself]

/-- Witness for C6 (amended) at a concrete input. -/
theorem deleteUser_invalid_transferee_witness :
    ("adm" ≠ "u1") ∧ (some "u1" = some "u1") ∧
    deleteUser
      { actingUser := ⟨"adm", ⟨"global", "owner"⟩, false⟩
        idToDelete := "u1"
        transferId := some "u1"
        workflowOwnerRoleId := "wo"
        credentialOwnerRoleId := "co"
        deactivationFails := fun _ => false
        internalHookFails := false
        externalHookFails := false }
      ⟨[⟨"u1", ⟨"global", "member"⟩, false⟩], [], [], [], [], []⟩ =
      ⟨⟨[⟨"u1", ⟨"global", "member"⟩, false⟩], [], [], [], [], []⟩, [], none,
        Except.error (ApiError.badRequest TRANSFEREE_SAME_AS_TARGET)⟩ :=
  ⟨by decide, rfl, deleteUser_invalid_transferee _ _ (by decide) rfl⟩

/-- Every changeRole call either leaves the store untouched or returns success. -/
theorem changeRole_store_cases (actingUser : UserRec) (targetUserId : String)
    (newRole : Option NewRoleBody) (st : Store) :
    (changeRole actingUser targetUserId newRole st).1 = st ∨
    (changeRole actingUser targetUserId newRole st).2 = Except.ok true := by
  unfold changeRole
  repeat' split
  all_goals simp

/-- CLAIM C10: whenever changeRole returns an error, no user record is modified — the
store after the call is exactly the store before it. -/
theorem changeRole_error_no_mutation (actingUser : UserRec) (targetUserId : String)
    (newRole : Option NewRoleBody) (st : Store) (e : ApiError)
    (h : (changeRole actingUser targetUserId newRole st).2 = Except.error e) :
    (changeRole actingUser targetUserId newRole st).1 = st := by
  rcases changeRole_store_cases actingUser targetUserId newRole st with h1 | h2
  · exact h1
  · rw [h2] at h
    exact absurd h (by simp)

/-- Witness for C10 at a concrete input: a member acting user is rejected and the store is
returned unchanged. -/
theorem changeRole_error_no_mutation_witness :
    (changeRole ⟨"m", ⟨"global", "member"⟩, false⟩ "u1" none
      ⟨[⟨"u1", ⟨"global", "member"⟩, false⟩], [], [], [], [], []⟩).2 =
      Except.error (ApiError.unauthorized NO_MEMBER) ∧
    (changeRole ⟨"m", ⟨"global", "member"⟩, false⟩ "u1" none
      ⟨[⟨"u1", ⟨"global", "member"⟩, false⟩], [], [], [], [], []⟩).1 =
      ⟨[⟨"u1", ⟨"global", "member"⟩, false⟩], [], [], [], [], []⟩ :=
  ⟨rfl, changeRole_error_no_mutation _ _ _ _ (ApiError.unauthorized NO_MEMBER) rfl⟩

/-- CLAIM C2: changeRole evaluates exactly the seven guards of the spec table, in that
fixed order with first-failure-wins semantics, and on full success resolves the role for
(newRole.scope, newRole.name) through the cached lookup and applies the single
role-update mutation: for all inputs it coincides with the guard-table interpreter
changeRoleSpec. -/
theorem changeRole_matches_spec (actingUser : UserRec) (targetUserId : String)
    (newRole : Option NewRoleBody) (st : Store) :
    changeRole actingUser targetUserId newRole st =
      changeRoleSpec actingUser targetUserId newRole st := by
  unfold changeRole changeRoleSpec specGuardList targetIsGlobalOwner
  split
  next h1 => simp [firstFailure, h1]
  next h1 =>
    split
    next => simp [firstFailure, h1]
    next nr =>
      split
      next h3 => simp [firstFailure, h1, h3]
      next h3 =>
        split
        next h4 => simp [firstFailure, h1, h3, h4]
        next h4 =>
          split
          next hfind => simp [firstFailure, h1, h3, h4, hfind]
          next targetUser hfind =>
            split
            next h6 =>
              simp only [Bool.and_eq_true, beq_iff_eq] at h6
              simp [firstFailure, h1, h3, h4, hfind, h6]
            next h6 =>
              split
              next h7 =>
                simp only [Bool.and_eq_true, beq_iff_eq] at h7
                simp [firstFailure, h1, h3, h4, hfind, h7]
              next h7 =>
                have hid : targetUser.id = targetUserId := by
                  have := List.find?_some hfind
                  exact eq_of_beq this
                rw [Bool.and_assoc] at h6 h7
                simp [firstFailure, h1, h3, h4, h6, h7, hfind, hid]

/-- The transfer-path transaction only ever removes the target from the user table. -/
theorem transferOwnershipTx_users (env : DeleteEnv) (t x : String) (st : Store) :
    (transferOwnershipTx env t x st).1.users = st.users.filter (fun u => !(u.id == t)) := rfl

/-- The cascade-path transaction either aborts (user table unchanged) or removes exactly
the target from the user table. -/
theorem cascadeDeleteTx_users (env : DeleteEnv) (t : String) (st : Store) :
    (cascadeDeleteTx env t st).1.users = st.users ∨
    (cascadeDeleteTx env t st).1.users = st.users.filter (fun u => !(u.id == t)) := by
  simp only [cascadeDeleteTx]
  split
  · exact Or.inl rfl
  · exact Or.inr rfl

/-- The user table after any deleteUser call is a sublist of the user table before it:
the operation never inserts a user and never edits a user record in place. -/
theorem deleteUser_users_sublist (env : DeleteEnv) (st : Store) :
    ((deleteUser env st).store.users).Sublist st.users := by
  simp only [deleteUser]
  split
  · exact List.Sublist.refl _
  split
  · exact List.Sublist.refl _
  split
  · exact List.Sublist.refl _
  split
  · exact List.Sublist.refl _
  next userToDelete hfound =>
    split
    · -- transfer path
      split
      · exact List.Sublist.refl _
      · split
        · rw [transferOwnershipTx_users]
          exact List.filter_sublist _
        · rw [transferOwnershipTx_users]
          exact List.filter_sublist _
    · -- cascade path
      split
      · exact List.Sublist.refl _
      next committed events heq =>
        have hu : committed.users = st.users ∨
            committed.users = st.users.filter (fun u => !(u.id == userToDelete.id)) := by
          have h := cascadeDeleteTx_users env userToDelete.id st
          rw [heq] at h
          exact h
        split
        · rcases hu with hu | hu <;> rw [hu]
          exact List.filter_sublist _
        · rcases hu with hu | hu <;> rw [hu]
          exact List.filter_sublist _

/-- A changeRole call never increases the number of users holding (global, owner). -/
theorem changeRole_ownerCount_le (actingUser : UserRec) (targetUserId : String)
    (newRole : Option NewRoleBody) (st : Store) :
    globalOwnerCount (changeRole actingUser targetUserId newRole st).1 ≤
      globalOwnerCount st := by
  unfold changeRole
  split
  · exact le_refl _
  split
  · exact le_refl _
  next nr =>
    split
    · exact le_refl _
    next h3 =>
      split
      · exact le_refl _
      next h4 =>
        split
        · exact le_refl _
        next targetUser hfind =>
          split
          · exact le_refl _
          split
          · exact le_refl _
          · -- success branch: one role is overwritten with a non-owner role
            unfold globalOwnerCount
            rw [List.countP_map]
            apply List.countP_mono_left
            intro u _ hp
            simp only [Function.comp_apply] at hp
            by_cases hidu : (u.id == targetUser.id) = true
            · exfalso
              rw [if_pos hidu] at hp
              simp only [isGlobalOwnerUser, findCachedRole] at hp
              have hsc : nr.scope.getD "" = "global" ∧ nr.name.getD "" = "owner" := by
                constructor <;> [exact eq_of_beq (Bool.and_elim_left hp);
                  exact eq_of_beq (Bool.and_elim_right hp)]
              have htr : truthyStr nr.name = true ∧ truthyStr nr.scope = true := by
                rcases hname : truthyStr nr.name <;> rcases hscope : truthyStr nr.scope <;>
                  simp [hname, hscope] at h3 ⊢
              apply h4
              rcases hnsc : nr.scope with _ | s
              · rw [hnsc] at htr
                simp [truthyStr] at htr
              · rcases hnn : nr.name with _ | n
                · rw [hnn] at htr
                  simp [truthyStr] at htr
                · rw [hnsc, hnn] at hsc
                  simp only [Option.getD_some] at hsc
                  rw [hsc.1, hsc.2]
                  simp
            · rw [if_neg hidu] at hp
              exact hp

/-- CLAIM C3: from any state satisfying the at-most-one-(global, owner) invariant, no
operation of this core can reach a state with a second global owner: both deleteUser
paths and changeRole preserve the invariant, and changeRole rejects every request whose
newRole is (global, owner) without mutating the store. -/
theorem global_owner_uniqueness_preserved (st : Store) (hst : AtMostOneOwner st) :
    (∀ env : DeleteEnv, AtMostOneOwner (deleteUser env st).store) ∧
    (∀ (actingUser : UserRec) (targetUserId : String) (newRole : Option NewRoleBody),
      AtMostOneOwner (changeRole actingUser targetUserId newRole st).1) ∧
    (∀ (actingUser : UserRec) (targetUserId : String) (nr : NewRoleBody),
      nr.scope = some "global" → nr.name = some "owner" →
      (changeRole actingUser targetUserId (some nr) st).1 = st ∧
      ∃ e, (changeRole actingUser targetUserId (some nr) st).2 = Except.error e) := by
  refine ⟨?_, ?_, ?_⟩
  · intro env
    unfold AtMostOneOwner globalOwnerCount at hst ⊢
    exact le_trans ((deleteUser_users_sublist env st).countP_le _) hst
  · intro actingUser targetUserId newRole
    unfold AtMostOneOwner at hst ⊢
    exact le_trans (changeRole_ownerCount_le actingUser targetUserId newRole st) hst
  · intro actingUser targetUserId nr hs hn
    unfold changeRole
    split
    · exact ⟨rfl, _, rfl⟩
    · simp only [hs, hn]
      have ht : (!truthyStr (some "owner") || !truthyStr (some "global")) = false := by decide
      rw [ht]
      simp only [Bool.false_eq_true, if_false]
      rw [if_pos (by decide)]
      exact ⟨rfl, _, rfl⟩

/-- Witness for C3 at a concrete input. -/
theorem global_owner_uniqueness_preserved_witness :
    AtMostOneOwner ⟨[⟨"own", ⟨"global", "owner"⟩, false⟩, ⟨"u1", ⟨"global", "member"⟩, false⟩],
      [], [], [], [], []⟩ ∧
    AtMostOneOwner (deleteUser
      { actingUser := ⟨"own", ⟨"global", "owner"⟩, false⟩
        idToDelete := "u1"
        transferId := none
        workflowOwnerRoleId := "wo"
        credentialOwnerRoleId := "co"
        deactivationFails := fun _ => false
        internalHookFails := false
        externalHookFails := false }
      ⟨[⟨"own", ⟨"global", "owner"⟩, false⟩, ⟨"u1", ⟨"global", "member"⟩, false⟩],
        [], [], [], [], []⟩).store ∧
    AtMostOneOwner (changeRole ⟨"own", ⟨"global", "owner"⟩, false⟩ "u1"
      (some ⟨some "admin", some "global"⟩)
      ⟨[⟨"own", ⟨"global", "owner"⟩, false⟩, ⟨"u1", ⟨"global", "member"⟩, false⟩],
        [], [], [], [], []⟩).1 :=
  ⟨by decide,
   (global_owner_uniqueness_preserved _ (by decide)).1 _,
   (global_owner_uniqueness_preserved _ (by decide)).2.1 _ "u1" _⟩

/-- CLAIM C9: whenever deleteUser emits its deletion telemetry event, the payload records
the id of the acting user, the target id, prior status "invited" exactly when the target
record has isPending set and "active" otherwise, migration strategy "transfer_data"
exactly when a transferee was given and "delete_data" otherwise, and carries the
transferee id exactly when a transferee was given. -/
theorem deleteUser_telemetry_fields (env : DeleteEnv) (st : Store) (u : UserRec)
    (hnodup : (st.users.map (fun v => v.id)).Nodup)
    (hmem : u ∈ st.users) (hid : u.id = env.idToDelete)
    (t : TelemetryData) (htel : (deleteUser env st).telemetry = some t) :
    t = { user_id := env.actingUser.id
          target_user_old_status := if u.isPending then "invited" else "active"
          target_user_id := env.idToDelete
          migration_strategy := if env.transferId.isSome then "transfer_data" else "delete_data"
          migration_user_id := env.transferId } := by
  simp only [deleteUser] at htel
  split at htel
  · exact absurd htel (by simp)
  split at htel
  · exact absurd htel (by simp)
  split at htel
  · exact absurd htel (by simp)
  split at htel
  · exact absurd htel (by simp)
  next userToDelete hfound =>
    have hmem2 : userToDelete ∈ st.users := by
      have h1 := List.mem_of_find?_eq_some hfound
      unfold findManyByIds at h1
      exact (List.mem_filter.mp h1).1
    have hidq : userToDelete.id = env.idToDelete := by
      have := List.find?_some hfound
      exact eq_of_beq this
    have hueq : userToDelete = u :=
      List.inj_on_of_nodup_map hnodup hmem2 hmem (hidq.trans hid.symm)
    split at htel
    next transferId heqtr =>
      split at htel
      · exact absurd htel (by simp)
      · split at htel <;>
          · simp only [Option.some.injEq] at htel
            rw [← htel, hueq, heqtr]
    next heqnone =>
      split at htel
      · exact absurd htel (by simp)
      · split at htel <;>
          · simp only [Option.some.injEq] at htel
            rw [← htel, hueq, heqnone]

/-- Witness for C9 at a concrete input. -/
theorem deleteUser_telemetry_fields_witness :
    ((⟨[⟨"adm", ⟨"global", "owner"⟩, false⟩, ⟨"u1", ⟨"global", "member"⟩, true⟩], [], [], [],
        [], []⟩ : Store).users.map (fun v => v.id)).Nodup ∧
    (deleteUser
      { actingUser := ⟨"adm", ⟨"global", "owner"⟩, false⟩
        idToDelete := "u1"
        transferId := none
        workflowOwnerRoleId := "wo"
        credentialOwnerRoleId := "co"
        deactivationFails := fun _ => false
        internalHookFails := false
        externalHookFails := false }
      ⟨[⟨"adm", ⟨"global", "owner"⟩, false⟩, ⟨"u1", ⟨"global", "member"⟩, true⟩], [], [], [],
        [], []⟩).telemetry =
      some { user_id := "adm", target_user_old_status := "invited", target_user_id := "u1",
             migration_strategy := "delete_data", migration_user_id := none } :=
  ⟨by decide, by
    have h := deleteUser_telemetry_fields
      { actingUser := ⟨"adm", ⟨"global", "owner"⟩, false⟩
        idToDelete := "u1"
        transferId := none
        workflowOwnerRoleId := "wo"
        credentialOwnerRoleId := "co"
        deactivationFails := fun _ => false
        internalHookFails := false
        externalHookFails := false }
      ⟨[⟨"adm", ⟨"global", "owner"⟩, false⟩, ⟨"u1", ⟨"global", "member"⟩, true⟩], [], [], [],
        [], []⟩
      ⟨"u1", ⟨"global", "member"⟩, true⟩ (by decide) (by decide) rfl
      { user_id := "adm", target_user_old_status := "invited", target_user_id := "u1",
        migration_strategy := "delete_data", migration_user_id := none } rfl
    exact rfl⟩

/-- CLAIM C7: under the two preceding guards, whenever the target id does not resolve
against the user table, or a transferee was requested and its id does not resolve, the
single batched lookup fails the arity check and deleteUser returns the UserNotFound error
with the store unchanged, no transactional operation issued and no telemetry emitted. -/
theorem deleteUser_user_not_found (env : DeleteEnv) (st : Store)
    (hself : env.actingUser.id ≠ env.idToDelete)
    (htr : env.transferId ≠ some env.idToDelete)
    (hnodup : (st.users.map (fun v => v.id)).Nodup)
    (hmiss : (∀ u ∈ st.users, u.id ≠ env.idToDelete) ∨
             (∃ t, env.transferId = some t ∧ ∀ u ∈ st.users, u.id ≠ t)) :
    deleteUser env st =
      ⟨st, [], none, Except.error (ApiError.notFound DELETE_IDS_NOT_FOUND)⟩ := by
  have hguard : ((findManyByIds st (lookupIds env.transferId env.idToDelete)).length == 0 ||
      (env.transferId.isSome &&
        (findManyByIds st (lookupIds env.transferId env.idToDelete)).length != 2)) = true := by
    rcases henv : env.transferId with _ | t
    · rcases hmiss with hmiss | ⟨t, hteq, _⟩
      · have husers : findManyByIds st (lookupIds none env.idToDelete) = [] := by
          unfold findManyByIds lookupIds
          rw [List.filter_eq_nil_iff]
          intro u hu
          simp only [List.contains_cons, List.contains_nil, Bool.or_false]
          simp [hmiss u hu]
        rw [husers]
        decide
      · rw [henv] at hteq
        cases hteq
    · have htd : t ≠ env.idToDelete := by
        intro hcontra
        apply htr
        rw [henv, hcontra]
      have hdisj : ∀ x ∈ st.users,
          ¬((x.id == t) = true ∧ (x.id == env.idToDelete) = true) := by
        intro x _ ⟨h1, h2⟩
        exact htd ((eq_of_beq h1).symm.trans (eq_of_beq h2))
      have hlen : (findManyByIds st (lookupIds (some t) env.idToDelete)).length =
          st.users.countP (fun u => u.id == t) +
            st.users.countP (fun u => u.id == env.idToDelete) := by
        unfold findManyByIds lookupIds
        rw [← List.countP_eq_length_filter,
          ← countP_or_disjoint st.users (fun u => u.id == t)
            (fun u => u.id == env.idToDelete) hdisj]
        apply List.countP_congr
        intro u _
        simp [List.contains_cons]
      have hle : (findManyByIds st (lookupIds (some t) env.idToDelete)).length ≤ 1 := by
        rw [hlen]
        rcases hmiss with hmiss | ⟨s, hseq, hsmiss⟩
        · have h0 : st.users.countP (fun u => u.id == env.idToDelete) = 0 := by
            rw [List.countP_eq_zero]
            intro u hu
            simp [hmiss u hu]
          have h1 : st.users.countP (fun u => u.id == t) ≤ 1 :=
            countP_beq_le_one_of_nodup_map (fun v => v.id) st.users hnodup t
          omega
        · have hst : s = t := by
            rw [henv] at hseq
            cases hseq
            rfl
          have h0 : st.users.countP (fun u => u.id == t) = 0 := by
            rw [List.countP_eq_zero]
            intro u hu
            rw [← hst]
            simp [hsmiss u hu]
          have h1 : st.users.countP (fun u => u.id == env.idToDelete) ≤ 1 :=
            countP_beq_le_one_of_nodup_map (fun v => v.id) st.users hnodup env.idToDelete
          omega
      have hne2 : (findManyByIds st (lookupIds (some t) env.idToDelete)).length ≠ 2 := by
        omega
      simp [hne2]
  simp only [deleteUser]
  rw [if_neg (by simp [hself]), if_neg (by simp [htr]), if_pos hguard]

/-- Witness for C7 at a concrete input: the transferee id resolves but the target id does
not, so the partial lookup is rejected as UserNotFound. -/
theorem deleteUser_user_not_found_witness :
    ("adm" ≠ "ghost") ∧
    ((⟨[⟨"x", ⟨"global", "member"⟩, false⟩], [], [], [], [], []⟩ : Store).users.map
      (fun v => v.id)).Nodup ∧
    deleteUser
      { actingUser := ⟨"adm", ⟨"global", "owner"⟩, false⟩
        idToDelete := "ghost"
        transferId := some "x"
        workflowOwnerRoleId := "wo"
        credentialOwnerRoleId := "co"
        deactivationFails := fun _ => false
        internalHookFails := false
        externalHookFails := false }
      ⟨[⟨"x", ⟨"global", "member"⟩, false⟩], [], [], [], [], []⟩ =
      ⟨⟨[⟨"x", ⟨"global", "member"⟩, false⟩], [], [], [], [], []⟩, [], none,
        Except.error (ApiError.notFound DELETE_IDS_NOT_FOUND)⟩ :=
  ⟨by decide, by decide,
   deleteUser_user_not_found _ _ (by decide) (by decide) (by decide)
     (Or.inl (by decide))⟩

/-- Counterexample for C4 as stated: at this input the transactional deletion commits
(the target user row is gone from the resulting store), yet the rejection of the awaited
external user-deleted hook propagates to the caller, so the operation does not return
success. -/
theorem deleteUser_hook_failure_counterexample :
    (deleteUser
      { actingUser := ⟨"adm", ⟨"global", "owner"⟩, false⟩
        idToDelete := "t"
        transferId := none
        workflowOwnerRoleId := "wo"
        credentialOwnerRoleId := "co"
        deactivationFails := fun _ => false
        internalHookFails := false
        externalHookFails := true }
      ⟨[⟨"t", ⟨"global", "member"⟩, false⟩], [], [], [], [], []⟩).result =
      Except.error ApiError.externalHookError ∧
    (deleteUser
      { actingUser := ⟨"adm", ⟨"global", "owner"⟩, false⟩
        idToDelete := "t"
        transferId := none
        workflowOwnerRoleId := "wo"
        credentialOwnerRoleId := "co"
        deactivationFails := fun _ => false
        internalHookFails := false
        externalHookFails := true }
      ⟨[⟨"t", ⟨"global", "member"⟩, false⟩], [], [], [], [], []⟩).store.users = [] :=
  ⟨rfl, rfl⟩

/-- The transfer transaction does not read the hook-failure oracles. -/
theorem transferOwnershipTx_hook_oracles (env : DeleteEnv) (b c : Bool) (t x : String)
    (st : Store) :
    transferOwnershipTx { env with internalHookFails := b, externalHookFails := c } t x st =
      transferOwnershipTx env t x st := rfl

/-- The cascade transaction does not read the hook-failure oracles. -/
theorem cascadeDeleteTx_hook_oracles (env : DeleteEnv) (b c : Bool) (t : String)
    (st : Store) :
    cascadeDeleteTx { env with internalHookFails := b, externalHookFails := c } t st =
      cascadeDeleteTx env t st := rfl

/-- CLAIM C4 (amended: the telemetry hook promise is discarded, so its failure changes
nothing and the call still succeeds; the external user-deleted hook is awaited, so its
failure does not roll back the committed store, the telemetry stays emitted, but the error
propagates to the caller instead of success): stated for every environment and store. -/
theorem deleteUser_best_effort_side_effects (env : DeleteEnv) (st : Store) :
    (∀ b : Bool, deleteUser { env with internalHookFails := b } st = deleteUser env st) ∧
    (deleteUser { env with externalHookFails := true } st).store =
      (deleteUser { env with externalHookFails := false } st).store ∧
    (deleteUser { env with externalHookFails := true } st).telemetry =
      (deleteUser { env with externalHookFails := false } st).telemetry ∧
    ((deleteUser { env with externalHookFails := false } st).result = Except.ok true →
      (deleteUser { env with externalHookFails := true } st).result =
        Except.error ApiError.externalHookError) := by
  refine ⟨fun b => rfl, ?_, ?_, ?_⟩ <;>
  · simp only [deleteUser]
    dsimp only
    simp only [transferOwnershipTx_hook_oracles, cascadeDeleteTx_hook_oracles]
    repeat' split
    all_goals try rfl
    all_goals simp_all

/-- Witness for C4 (amended) at a concrete input. -/
theorem deleteUser_best_effort_side_effects_witness :
    (deleteUser
      { actingUser := ⟨"adm", ⟨"global", "owner"⟩, false⟩
        idToDelete := "t"
        transferId := none
        workflowOwnerRoleId := "wo"
        credentialOwnerRoleId := "co"
        deactivationFails := fun _ => false
        internalHookFails := false
        externalHookFails := false }
      ⟨[⟨"t", ⟨"global", "member"⟩, false⟩], [], [], [], [], []⟩).result = Except.ok true ∧
    (deleteUser
      { actingUser := ⟨"adm", ⟨"global", "owner"⟩, false⟩
        idToDelete := "t"
        transferId := none
        workflowOwnerRoleId := "wo"
        credentialOwnerRoleId := "co"
        deactivationFails := fun _ => false
        internalHookFails := false
        externalHookFails := true }
      ⟨[⟨"t", ⟨"global", "member"⟩, false⟩], [], [], [], [], []⟩).result =
      Except.error ApiError.externalHookError :=
  ⟨rfl,
   (deleteUser_best_effort_side_effects
     { actingUser := ⟨"adm", ⟨"global", "owner"⟩, false⟩
       idToDelete := "t"
       transferId := none
       workflowOwnerRoleId := "wo"
       credentialOwnerRoleId := "co"
       deactivationFails := fun _ => false
       internalHookFails := false
       externalHookFails := false }
     ⟨[⟨"t", ⟨"global", "member"⟩, false⟩], [], [], [], [], []⟩).2.2.2 rfl⟩

/-- Shape of the shared-workflow table committed by the transfer transaction: first the
pre-existing links of the transferee on the owned workflow ids are removed, then the owner
links of the target are re-pointed, and finally the user-delete cascade drops the links
still bound to the target. -/
theorem transferOwnershipTx_sharedWorkflows (env : DeleteEnv) (t x : String) (st : Store) :
    (transferOwnershipTx env t x st).1.sharedWorkflows =
      ((st.sharedWorkflows.filter
        (fun l => !(l.userId == x && ((st.sharedWorkflows.filter
          (fun k => k.userId == t && k.roleId == env.workflowOwnerRoleId)).map
            (fun k => k.workflowId)).contains l.workflowId))).map
        (fun l => if l.userId == t && l.roleId == env.workflowOwnerRoleId
                  then { l with userId := x } else l)).filter
        (fun l => !(l.userId == t)) := rfl

/-- Trace issued by the transfer transaction, in order. -/
theorem transferOwnershipTx_events_eq (env : DeleteEnv) (t x : String) (st : Store) :
    (transferOwnershipTx env t x st).2 =
      [Event.deleteTransfereeWorkflowLinks x ((st.sharedWorkflows.filter
          (fun k => k.userId == t && k.roleId == env.workflowOwnerRoleId)).map
            (fun k => k.workflowId)),
       Event.transferWorkflowOwnership t x,
       Event.deleteTransfereeCredentialLinks x ((st.sharedCredentials.filter
          (fun k => k.userId == t && k.roleId == env.credentialOwnerRoleId)).map
            (fun k => k.credentialsId)),
       Event.transferCredentialOwnership t x,
       Event.deleteAuthIdentities t,
       Event.deleteUserRecord t] := rfl

/-- Reduction of deleteUser on the transfer path: when the guards pass, the batched
lookup returns exactly two rows, and both finds succeed, the outcome is the committed
transfer transaction, the transfer telemetry, and success unless the awaited external
hook rejects. -/
theorem deleteUser_transfer_reduction (env : DeleteEnv) (st : Store) (tid : String)
    (u1 u2 : UserRec)
    (hT : env.transferId = some tid)
    (hg1 : env.actingUser.id ≠ env.idToDelete)
    (hg2 : tid ≠ env.idToDelete)
    (hlen : (findManyByIds st (lookupIds (some tid) env.idToDelete)).length = 2)
    (hf1 : (findManyByIds st (lookupIds (some tid) env.idToDelete)).find?
        (fun u => u.id == env.idToDelete) = some u1)
    (hf2 : (findManyByIds st (lookupIds (some tid) env.idToDelete)).find?
        (fun u => u.id == tid) = some u2) :
    deleteUser env st =
      ⟨(transferOwnershipTx env u1.id u2.id st).1,
       (transferOwnershipTx env u1.id u2.id st).2,
       some { user_id := env.actingUser.id
              target_user_old_status := if u1.isPending then "invited" else "active"
              target_user_id := env.idToDelete
              migration_strategy := "transfer_data"
              migration_user_id := some tid },
       if env.externalHookFails then Except.error ApiError.externalHookError
       else Except.ok true⟩ := by
  have hcond : ¬(((findManyByIds st (lookupIds (some tid) env.idToDelete)).length == 0 ||
      (some tid : Option String).isSome &&
        (findManyByIds st (lookupIds (some tid) env.idToDelete)).length != 2) = true) := by
    rw [hlen]
    simp
  simp only [deleteUser]
  rw [hT]
  rw [if_neg (by simp [hg1])]
  rw [if_neg (by simp [hg2])]
  rw [if_neg hcond]
  rw [hf1]
  dsimp only
  rw [hf2]
  by_cases hx : env.externalHookFails <;> simp [hx]

/-- Witness-free helper: a Bool-level disequality from a Prop-level one. -/
theorem beq_false_of_ne {α : Type} [BEq α] [LawfulBEq α] {a b : α} (h : a ≠ b) :
    (a == b) = false := by
  rcases hab : a == b
  · rfl
  · exact absurd (eq_of_beq hab) h

/-- CLAIM C1: for a transfer-path deletion in which the target owns workflows W1 and W2
through owner links and the transferee already holds a (shared) link on W1, a successful
deleteUser leaves the transferee with an owner link on both W1 and W2, leaves exactly one
link row for (transferee, W1), removes the target user record, and the committed
transaction trace deletes the pre-existing transferee links strictly before re-pointing
ownership, for the workflow kind and then for the credential kind. -/
theorem deleteUser_transfer_ownership (env : DeleteEnv) (st : Store)
    (utarget utrans : UserRec) (lshare : SharedWorkflowLink) (tid W1 W2 : String)
    (hT : env.transferId = some tid)
    (hneSelf : env.actingUser.id ≠ env.idToDelete)
    (hneT : tid ≠ env.idToDelete)
    (hextOk : env.externalHookFails = false)
    (hnodupU : (st.users.map (fun v => v.id)).Nodup)
    (hmemT : utarget ∈ st.users) (hidT : utarget.id = env.idToDelete)
    (hmemX : utrans ∈ st.users) (hidX : utrans.id = tid)
    (hW1 : (⟨env.idToDelete, W1, env.workflowOwnerRoleId⟩ : SharedWorkflowLink) ∈
      st.sharedWorkflows)
    (hW2 : (⟨env.idToDelete, W2, env.workflowOwnerRoleId⟩ : SharedWorkflowLink) ∈
      st.sharedWorkflows)
    (hshare : lshare ∈ st.sharedWorkflows)
    (hshareU : lshare.userId = tid) (hshareW : lshare.workflowId = W1)
    (hnodupSW : (st.sharedWorkflows.map (fun l => (l.userId, l.workflowId))).Nodup) :
    (deleteUser env st).result = Except.ok true ∧
    (⟨tid, W1, env.workflowOwnerRoleId⟩ : SharedWorkflowLink) ∈
      (deleteUser env st).store.sharedWorkflows ∧
    (⟨tid, W2, env.workflowOwnerRoleId⟩ : SharedWorkflowLink) ∈
      (deleteUser env st).store.sharedWorkflows ∧
    (deleteUser env st).store.sharedWorkflows.countP
      (fun l => l.userId == tid && l.workflowId == W1) = 1 ∧
    (∀ u ∈ (deleteUser env st).store.users, u.id ≠ env.idToDelete) ∧
    (∃ wIds cIds, (deleteUser env st).events =
      [Event.deleteTransfereeWorkflowLinks tid wIds,
       Event.transferWorkflowOwnership env.idToDelete tid,
       Event.deleteTransfereeCredentialLinks tid cIds,
       Event.transferCredentialOwnership env.idToDelete tid,
       Event.deleteAuthIdentities env.idToDelete,
       Event.deleteUserRecord env.idToDelete]) := by
  have htid_d_f : (tid == env.idToDelete) = false := beq_false_of_ne hneT
  have hd_tid_f : (env.idToDelete == tid) = false := beq_false_of_ne (Ne.symm hneT)
  -- the batched lookup returns exactly the two rows
  have hdisj : ∀ x ∈ st.users,
      ¬((x.id == tid) = true ∧ (x.id == env.idToDelete) = true) := by
    intro x _ ⟨h1, h2⟩
    exact hneT ((eq_of_beq h1).symm.trans (eq_of_beq h2))
  have hlen : (findManyByIds st (lookupIds (some tid) env.idToDelete)).length = 2 := by
    have h1 : (findManyByIds st (lookupIds (some tid) env.idToDelete)).length =
        st.users.countP (fun u => u.id == tid || u.id == env.idToDelete) := by
      unfold findManyByIds lookupIds
      rw [← List.countP_eq_length_filter]
      apply List.countP_congr
      intro u _
      simp [List.contains_cons]
    rw [h1, countP_or_disjoint st.users (fun u => u.id == tid)
        (fun u => u.id == env.idToDelete) hdisj,
      countP_beq_eq_one_of_nodup_map (fun v => v.id) st.users hnodupU utrans hmemX tid hidX,
      countP_beq_eq_one_of_nodup_map (fun v => v.id) st.users hnodupU utarget hmemT
        env.idToDelete hidT]
  have humemT : utarget ∈ findManyByIds st (lookupIds (some tid) env.idToDelete) :=
    List.mem_filter.mpr ⟨hmemT, by simp [lookupIds, List.contains_cons, hidT]⟩
  have humemX : utrans ∈ findManyByIds st (lookupIds (some tid) env.idToDelete) :=
    List.mem_filter.mpr ⟨hmemX, by simp [lookupIds, List.contains_cons, hidX]⟩
  have hf1some : ((findManyByIds st (lookupIds (some tid) env.idToDelete)).find?
      (fun u => u.id == env.idToDelete)).isSome :=
    List.find?_isSome.mpr ⟨utarget, humemT, by simp [hidT]⟩
  obtain ⟨u1, hf1⟩ := Option.isSome_iff_exists.mp hf1some
  have hu1id : u1.id = env.idToDelete := by
    have h := List.find?_some hf1
    exact eq_of_beq h
  have hf2some : ((findManyByIds st (lookupIds (some tid) env.idToDelete)).find?
      (fun u => u.id == tid)).isSome :=
    List.find?_isSome.mpr ⟨utrans, humemX, by simp [hidX]⟩
  obtain ⟨u2, hf2⟩ := Option.isSome_iff_exists.mp hf2some
  have hu2id : u2.id = tid := by
    have h := List.find?_some hf2
    exact eq_of_beq h
  have hred := deleteUser_transfer_reduction env st tid u1 u2 hT hneSelf hneT hlen hf1 hf2
  -- facts about the owned workflow ids
  have hW1owned : W1 ∈ (st.sharedWorkflows.filter
      (fun k => k.userId == env.idToDelete && k.roleId == env.workflowOwnerRoleId)).map
        (fun k => k.workflowId) :=
    List.mem_map.mpr ⟨⟨env.idToDelete, W1, env.workflowOwnerRoleId⟩,
      List.mem_filter.mpr ⟨hW1, by simp⟩, rfl⟩
  have hW1contains : ((st.sharedWorkflows.filter
      (fun k => k.userId == env.idToDelete && k.roleId == env.workflowOwnerRoleId)).map
        (fun k => k.workflowId)).contains W1 = true :=
    List.contains_iff_exists_mem_beq.mpr ⟨W1, hW1owned, by simp⟩
  rw [hred]
  dsimp only
  refine ⟨by rw [hextOk]; rfl, ?_, ?_, ?_, ?_, ?_⟩
  · -- transferee owner link on W1
    rw [transferOwnershipTx_sharedWorkflows, hu1id, hu2id]
    refine List.mem_filter.mpr ⟨?_, by simp [htid_d_f]⟩
    refine List.mem_map.mpr ⟨⟨env.idToDelete, W1, env.workflowOwnerRoleId⟩, ?_, by simp⟩
    exact List.mem_filter.mpr ⟨hW1, by simp [hd_tid_f]⟩
  · -- transferee owner link on W2
    rw [transferOwnershipTx_sharedWorkflows, hu1id, hu2id]
    refine List.mem_filter.mpr ⟨?_, by simp [htid_d_f]⟩
    refine List.mem_map.mpr ⟨⟨env.idToDelete, W2, env.workflowOwnerRoleId⟩, ?_, by simp⟩
    exact List.mem_filter.mpr ⟨hW2, by simp [hd_tid_f]⟩
  · -- exactly one row for (transferee, W1)
    rw [transferOwnershipTx_sharedWorkflows, hu1id, hu2id]
    rw [List.countP_filter, List.countP_map, List.countP_filter]
    simp only [Function.comp]
    rw [List.countP_congr (q := fun l =>
      (l.userId == env.idToDelete && l.roleId == env.workflowOwnerRoleId) &&
        l.workflowId == W1) ?_]
    · have hup : st.sharedWorkflows.countP (fun l =>
          (l.userId == env.idToDelete && l.roleId == env.workflowOwnerRoleId) &&
            l.workflowId == W1) ≤ 1 := by
        have hmono : st.sharedWorkflows.countP (fun l =>
            (l.userId == env.idToDelete && l.roleId == env.workflowOwnerRoleId) &&
              l.workflowId == W1) ≤ st.sharedWorkflows.countP (fun l =>
                ((l.userId, l.workflowId) == (env.idToDelete, W1))) := by
          apply List.countP_mono_left
          intro x _ hpx
          have h1 : x.userId = env.idToDelete :=
            eq_of_beq (Bool.and_elim_left (Bool.and_elim_left hpx))
          have h2 : x.workflowId = W1 := eq_of_beq (Bool.and_elim_right hpx)
          rw [h1, h2]
          simp
        exact le_trans hmono
          (countP_beq_le_one_of_nodup_map (fun l => (l.userId, l.workflowId))
            st.sharedWorkflows hnodupSW (env.idToDelete, W1))
      have hlow : 0 < st.sharedWorkflows.countP (fun l =>
          (l.userId == env.idToDelete && l.roleId == env.workflowOwnerRoleId) &&
            l.workflowId == W1) :=
        List.countP_pos_iff.mpr ⟨⟨env.idToDelete, W1, env.workflowOwnerRoleId⟩, hW1, by simp⟩
      omega
    · intro l hl
      by_cases hc : (l.userId == env.idToDelete && l.roleId == env.workflowOwnerRoleId) = true
      · have hud : l.userId = env.idToDelete := eq_of_beq (Bool.and_elim_left hc)
        have hrd : l.roleId = env.workflowOwnerRoleId := eq_of_beq (Bool.and_elim_right hc)
        simp [hud, hrd, hneT, Ne.symm hneT]
      · have hcp : ¬(l.userId = env.idToDelete ∧ l.roleId = env.workflowOwnerRoleId) := by
          intro hcc
          exact hc (by simp [hcc.1, hcc.2])
        by_cases hu : (l.userId == tid) = true
        · have hut : l.userId = tid := eq_of_beq hu
          by_cases hw : (l.workflowId == W1) = true
          · have hwl : l.workflowId = W1 := eq_of_beq hw
            simp [hcp, hut, hwl, hneT, Ne.symm hneT]
            exact ⟨_, hW1, rfl, rfl, rfl⟩
          · have hwl : ¬(l.workflowId = W1) := fun hh => hw (by simp [hh])
            simp [hcp, hut, hwl, hneT, Ne.symm hneT]
        · have hut : ¬(l.userId = tid) := fun hh => hu (by simp [hh])
          simp [hcp, hut]
  · -- the target user record is gone
    rw [transferOwnershipTx_users, hu1id]
    intro u hu
    have hp := (List.mem_filter.mp hu).2
    simp only [Bool.not_eq_true'] at hp
    exact fun hcontra => by
      rw [hcontra] at hp
      simp at hp
  · -- ordered trace: delete transferee links, then re-point, per resource kind
    rw [transferOwnershipTx_events_eq, hu1id, hu2id]
    exact ⟨_, _, rfl⟩

/-- Witness for C1 at the concrete transfer scenario. -/
theorem deleteUser_transfer_ownership_witness :
    ((transferScenarioStore.users.map (fun v => v.id)).Nodup ∧
     (transferScenarioStore.sharedWorkflows.map (fun l => (l.userId, l.workflowId))).Nodup) ∧
    ((deleteUser transferScenarioEnv transferScenarioStore).result = Except.ok true ∧
     (⟨"x", "w1", transferScenarioEnv.workflowOwnerRoleId⟩ : SharedWorkflowLink) ∈
       (deleteUser transferScenarioEnv transferScenarioStore).store.sharedWorkflows ∧
     (⟨"x", "w2", transferScenarioEnv.workflowOwnerRoleId⟩ : SharedWorkflowLink) ∈
       (deleteUser transferScenarioEnv transferScenarioStore).store.sharedWorkflows ∧
     (deleteUser transferScenarioEnv transferScenarioStore).store.sharedWorkflows.countP
       (fun l => l.userId == "x" && l.workflowId == "w1") = 1 ∧
     (∀ u ∈ (deleteUser transferScenarioEnv transferScenarioStore).store.users,
       u.id ≠ transferScenarioEnv.idToDelete) ∧
     (∃ wIds cIds, (deleteUser transferScenarioEnv transferScenarioStore).events =
       [Event.deleteTransfereeWorkflowLinks "x" wIds,
        Event.transferWorkflowOwnership transferScenarioEnv.idToDelete "x",
        Event.deleteTransfereeCredentialLinks "x" cIds,
        Event.transferCredentialOwnership transferScenarioEnv.idToDelete "x",
        Event.deleteAuthIdentities transferScenarioEnv.idToDelete,
        Event.deleteUserRecord transferScenarioEnv.idToDelete])) :=
  ⟨⟨by decide, by decide⟩,
   deleteUser_transfer_ownership transferScenarioEnv transferScenarioStore
     ⟨"t", ⟨"global", "member"⟩, false⟩ ⟨"x", ⟨"global", "member"⟩, false⟩
     ⟨"x", "w1", "sh"⟩ "x" "w1" "w2"
     rfl (by decide) (by decide) rfl (by decide)
     (by decide) rfl (by decide) rfl
     (by decide) (by decide) (by decide) rfl rfl (by decide)⟩

/-- Counting over a filterMap counts the sources whose image satisfies the predicate. -/
theorem countP_filterMap_eq {α β : Type} (f : α → Option β) (p : β → Bool) (l : List α) :
    (l.filterMap f).countP p =
      l.countP (fun a => match f a with | some b => p b | none => false) := by
  induction l with
  | nil => rfl
  | cons a t ih =>
    rcases hfa : f a with _ | b
    · rw [List.filterMap_cons_none hfa, List.countP_cons, ih]
      simp [hfa]
    · rw [List.filterMap_cons_some hfa, List.countP_cons, List.countP_cons, ih]
      simp [hfa]

/-- The workflow ids of the owner links of one user are distinct when (userId,
workflowId) pairs are unique store-wide. -/
theorem nodup_owned_workflowIds (st : Store) (t roleId : String)
    (h : (st.sharedWorkflows.map (fun l => (l.userId, l.workflowId))).Nodup) :
    ((st.sharedWorkflows.filter (fun l => l.userId == t && l.roleId == roleId)).map
      (fun l => l.workflowId)).Nodup := by
  have hsub : ((st.sharedWorkflows.filter
      (fun l => l.userId == t && l.roleId == roleId)).map
        (fun l => (l.userId, l.workflowId))).Sublist
      (st.sharedWorkflows.map (fun l => (l.userId, l.workflowId))) :=
    (List.filter_sublist _).map _
  have h2 : ((st.sharedWorkflows.filter
      (fun l => l.userId == t && l.roleId == roleId)).map
        (fun l => (l.userId, l.workflowId))).Nodup := h.sublist hsub
  have h2p := List.pairwise_map.mp h2
  apply List.pairwise_map.mpr
  apply List.Pairwise.imp_of_mem ?_ h2p
  intro a b ha hb hab hcontra
  apply hab
  have hat : a.userId = t := eq_of_beq (Bool.and_elim_left (List.mem_filter.mp ha).2)
  have hbt : b.userId = t := eq_of_beq (Bool.and_elim_left (List.mem_filter.mp hb).2)
  rw [hat, hbt, hcontra]

/-- Abort case of the cascade transaction: some active owned workflow fails to
deactivate; nothing is committed. -/
theorem cascadeDeleteTx_abort (env : DeleteEnv) (t : String) (st : Store)
    (h : (activeOwnedWorkflowsOf st t env.workflowOwnerRoleId).any
      (fun w => env.deactivationFails w.id) = true) :
    cascadeDeleteTx env t st =
      (st, (activeOwnedWorkflowsOf st t env.workflowOwnerRoleId).map
        (fun w => Event.deactivateWorkflow w.id),
       some ApiError.workflowDeactivationError) := by
  have h' := h
  unfold activeOwnedWorkflowsOf ownedWorkflowsOf at h'
  simp only [cascadeDeleteTx]
  rw [if_pos h']
  rfl

/-- Commit case of the cascade transaction: every deactivation succeeds, the owned
workflows and credentials are removed, the auth identities and the user row are deleted,
and the trace lists the deactivations first and the removals after. -/
theorem cascadeDeleteTx_commit (env : DeleteEnv) (t : String) (st : Store)
    (h : (activeOwnedWorkflowsOf st t env.workflowOwnerRoleId).any
      (fun w => env.deactivationFails w.id) = false) :
    cascadeDeleteTx env t st =
      (deleteUserRecord
        { st with
          workflows := st.workflows.filter (fun w =>
            !(((ownedWorkflowsOf st t env.workflowOwnerRoleId).map
              (fun v => v.id)).contains w.id))
          sharedWorkflows := st.sharedWorkflows.filter (fun l =>
            !(((ownedWorkflowsOf st t env.workflowOwnerRoleId).map
              (fun v => v.id)).contains l.workflowId))
          credentials := st.credentials.filter (fun c =>
            !(((ownedCredentialsOf st t env.credentialOwnerRoleId).map
              (fun v => v.id)).contains c.id))
          sharedCredentials := st.sharedCredentials.filter (fun l =>
            !(((ownedCredentialsOf st t env.credentialOwnerRoleId).map
              (fun v => v.id)).contains l.credentialsId))
          authIdentities := st.authIdentities.filter (fun a => !(a.userId == t)) } t,
       (activeOwnedWorkflowsOf st t env.workflowOwnerRoleId).map
         (fun w => Event.deactivateWorkflow w.id) ++
        [Event.removeWorkflows ((ownedWorkflowsOf st t env.workflowOwnerRoleId).map
          (fun v => v.id)),
         Event.removeCredentials ((ownedCredentialsOf st t env.credentialOwnerRoleId).map
          (fun v => v.id)),
         Event.deleteAuthIdentities t, Event.deleteUserRecord t],
       none) := by
  have h' := h
  unfold activeOwnedWorkflowsOf ownedWorkflowsOf at h'
  simp only [cascadeDeleteTx]
  rw [if_neg (by rw [h']; exact Bool.false_ne_true)]
  rfl

/-- Reduction of deleteUser on the cascade path: when the guards pass and the target
lookup succeeds, the outcome is determined by the cascade transaction. -/
theorem deleteUser_cascade_reduction (env : DeleteEnv) (st : Store) (u1 : UserRec)
    (hT : env.transferId = none)
    (hg1 : env.actingUser.id ≠ env.idToDelete)
    (hne : findManyByIds st (lookupIds none env.idToDelete) ≠ [])
    (hf1 : (findManyByIds st (lookupIds none env.idToDelete)).find?
        (fun u => u.id == env.idToDelete) = some u1) :
    deleteUser env st =
      (match cascadeDeleteTx env u1.id st with
       | (_, events, some e) => ⟨st, events, none, Except.error e⟩
       | (committed, events, none) =>
         if env.externalHookFails then
           ⟨committed, events,
            some { user_id := env.actingUser.id
                   target_user_old_status := if u1.isPending then "invited" else "active"
                   target_user_id := env.idToDelete
                   migration_strategy := "delete_data"
                   migration_user_id := none },
            Except.error ApiError.externalHookError⟩
         else
           ⟨committed, events,
            some { user_id := env.actingUser.id
                   target_user_old_status := if u1.isPending then "invited" else "active"
                   target_user_id := env.idToDelete
                   migration_strategy := "delete_data"
                   migration_user_id := none },
            Except.ok true⟩) := by
  have hcond : ¬(((findManyByIds st (lookupIds none env.idToDelete)).length == 0 ||
      (none : Option String).isSome &&
        (findManyByIds st (lookupIds none env.idToDelete)).length != 2) = true) := by
    simp only [Option.isSome_none, Bool.false_and, Bool.or_false]
    simp [List.length_eq_zero, hne]
  simp only [deleteUser]
  rw [hT]
  rw [if_neg (by simp [hg1])]
  rw [if_neg (show ¬((none == some env.idToDelete) = true) by simp)]
  rw [if_neg hcond]
  rw [hf1]
  dsimp only
  rfl

/-- CLAIM C8: for a cascade-path deletion (no transferee) where the target owns the
currently active workflow W and the credential C, when no deactivation call fails the
workflow W is deactivated exactly once and all deactivations happen strictly before the
removal step, the owned workflow and credential rows are gone afterwards together with
the target user record; and when the deactivation call fails, the whole deletion fails
with nothing committed. -/
theorem deleteUser_cascade_deactivation (env : DeleteEnv) (st : Store)
    (utarget : UserRec) (W C : String)
    (hT : env.transferId = none)
    (hneSelf : env.actingUser.id ≠ env.idToDelete)
    (hextOk : env.externalHookFails = false)
    (hmemT : utarget ∈ st.users) (hidT : utarget.id = env.idToDelete)
    (hWlink : (⟨env.idToDelete, W, env.workflowOwnerRoleId⟩ : SharedWorkflowLink) ∈
      st.sharedWorkflows)
    (hWrec : st.workflows.find? (fun w => w.id == W) = some ⟨W, true⟩)
    (hClink : (⟨env.idToDelete, C, env.credentialOwnerRoleId⟩ : SharedCredentialLink) ∈
      st.sharedCredentials)
    (hCrec : st.credentials.find? (fun c => c.id == C) = some ⟨C⟩)
    (hnodupSW : (st.sharedWorkflows.map (fun l => (l.userId, l.workflowId))).Nodup) :
    ((deleteUser { env with deactivationFails := fun _ => false } st).result =
        Except.ok true ∧
     (deleteUser { env with deactivationFails := fun _ => false } st).events.countP
        (fun e => e == Event.deactivateWorkflow W) = 1 ∧
     (∃ dEvts wIds cIds,
        (deleteUser { env with deactivationFails := fun _ => false } st).events =
          dEvts ++ [Event.removeWorkflows wIds, Event.removeCredentials cIds,
            Event.deleteAuthIdentities env.idToDelete,
            Event.deleteUserRecord env.idToDelete] ∧
        (∀ e ∈ dEvts, ∃ w, e = Event.deactivateWorkflow w) ∧
        Event.deactivateWorkflow W ∈ dEvts) ∧
     (∀ w ∈ (deleteUser { env with deactivationFails := fun _ => false } st).store.workflows,
        w.id ≠ W) ∧
     (∀ c ∈ (deleteUser { env with deactivationFails := fun _ => false } st).store.credentials,
        c.id ≠ C) ∧
     (∀ u ∈ (deleteUser { env with deactivationFails := fun _ => false } st).store.users,
        u.id ≠ env.idToDelete)) ∧
    ((deleteUser { env with deactivationFails := fun _ => true } st).store = st ∧
     (deleteUser { env with deactivationFails := fun _ => true } st).result =
        Except.error ApiError.workflowDeactivationError) := by
  have humemT : utarget ∈ findManyByIds st (lookupIds none env.idToDelete) :=
    List.mem_filter.mpr ⟨hmemT, by simp [lookupIds, List.contains_cons, hidT]⟩
  have hne : findManyByIds st (lookupIds none env.idToDelete) ≠ [] :=
    List.ne_nil_of_mem humemT
  have hf1some : ((findManyByIds st (lookupIds none env.idToDelete)).find?
      (fun u => u.id == env.idToDelete)).isSome :=
    List.find?_isSome.mpr ⟨utarget, humemT, by simp [hidT]⟩
  obtain ⟨u1, hf1⟩ := Option.isSome_iff_exists.mp hf1some
  have hu1id : u1.id = env.idToDelete := by
    have h := List.find?_some hf1
    exact eq_of_beq h
  have hWownedLink : (⟨env.idToDelete, W, env.workflowOwnerRoleId⟩ : SharedWorkflowLink) ∈
      st.sharedWorkflows.filter
        (fun l => l.userId == env.idToDelete && l.roleId == env.workflowOwnerRoleId) :=
    List.mem_filter.mpr ⟨hWlink, by simp⟩
  have hWrecMem : (⟨W, true⟩ : WorkflowRec) ∈
      ownedWorkflowsOf st env.idToDelete env.workflowOwnerRoleId := by
    unfold ownedWorkflowsOf
    exact List.mem_filterMap.mpr
      ⟨⟨env.idToDelete, W, env.workflowOwnerRoleId⟩, hWownedLink, hWrec⟩
  have hWactive : (⟨W, true⟩ : WorkflowRec) ∈
      activeOwnedWorkflowsOf st env.idToDelete env.workflowOwnerRoleId := by
    unfold activeOwnedWorkflowsOf
    exact List.mem_filter.mpr ⟨hWrecMem, rfl⟩
  have hCrecMem : (⟨C⟩ : CredentialRec) ∈
      ownedCredentialsOf st env.idToDelete env.credentialOwnerRoleId := by
    unfold ownedCredentialsOf
    refine List.mem_filterMap.mpr ⟨⟨env.idToDelete, C, env.credentialOwnerRoleId⟩, ?_, hCrec⟩
    exact List.mem_filter.mpr ⟨hClink, by simp⟩
  have hWinIds : ((ownedWorkflowsOf st env.idToDelete env.workflowOwnerRoleId).map
      (fun v => v.id)).contains W = true :=
    List.contains_iff_exists_mem_beq.mpr
      ⟨W, List.mem_map.mpr ⟨⟨W, true⟩, hWrecMem, rfl⟩, by simp⟩
  have hCinIds : ((ownedCredentialsOf st env.idToDelete env.credentialOwnerRoleId).map
      (fun v => v.id)).contains C = true :=
    List.contains_iff_exists_mem_beq.mpr
      ⟨C, List.mem_map.mpr ⟨⟨C⟩, hCrecMem, rfl⟩, by simp⟩
  constructor
  · -- success: every deactivation call succeeds
    have hred := deleteUser_cascade_reduction
      { env with deactivationFails := fun _ => false } st u1 hT hneSelf hne hf1
    have hno : (activeOwnedWorkflowsOf st u1.id
        ({ env with deactivationFails := fun _ => false } : DeleteEnv).workflowOwnerRoleId).any
          (fun w => ({ env with deactivationFails := fun _ => false } :
            DeleteEnv).deactivationFails w.id) = false := by
      simp
    have hcom := cascadeDeleteTx_commit
      { env with deactivationFails := fun _ => false } u1.id st hno
    rw [hred, hcom]
    dsimp only
    rw [hextOk, hu1id]
    simp only [Bool.false_eq_true, if_false]
    refine ⟨by trivial, ?_, ?_, ?_, ?_, ?_⟩
    · -- W is deactivated exactly once
      rw [List.countP_append]
      have htail : List.countP (fun e => e == Event.deactivateWorkflow W)
          [Event.removeWorkflows ((ownedWorkflowsOf st env.idToDelete
            env.workflowOwnerRoleId).map (fun v => v.id)),
           Event.removeCredentials ((ownedCredentialsOf st env.idToDelete
            env.credentialOwnerRoleId).map (fun v => v.id)),
           Event.deleteAuthIdentities env.idToDelete,
           Event.deleteUserRecord env.idToDelete] = 0 := by
        simp
      rw [htail]
      have hhead : ((activeOwnedWorkflowsOf st env.idToDelete
          env.workflowOwnerRoleId).map
          (fun w => Event.deactivateWorkflow w.id)).countP
            (fun e => e == Event.deactivateWorkflow W) =
          (activeOwnedWorkflowsOf st env.idToDelete env.workflowOwnerRoleId).countP
            (fun w => w.id == W) := by
        rw [List.countP_map]
        apply List.countP_congr
        intro w _
        simp [Function.comp]
      rw [hhead]
      unfold activeOwnedWorkflowsOf
      rw [List.countP_filter]
      unfold ownedWorkflowsOf
      rw [countP_filterMap_eq]
      rw [List.countP_congr (q := fun k => k.workflowId == W) ?_]
      · rw [countP_beq_eq_one_of_nodup_map (fun k => k.workflowId) _
          (nodup_owned_workflowIds st env.idToDelete env.workflowOwnerRoleId hnodupSW)
          ⟨env.idToDelete, W, env.workflowOwnerRoleId⟩ hWownedLink W rfl]
      · intro k hk
        by_cases hkw : (k.workflowId == W) = true
        · have hkwe : k.workflowId = W := eq_of_beq hkw
          rw [hkwe]
          simp [hWrec, hkwe]
        · rcases hfk : st.workflows.find? (fun w => w.id == k.workflowId) with _ | w
          · simp [hfk, hkw]
          · have hwid : w.id = k.workflowId := by
              have h := List.find?_some hfk
              exact eq_of_beq h
            simp [hfk, hwid, hkw]
    · -- deactivations happen strictly before the removal step
      refine ⟨(activeOwnedWorkflowsOf st env.idToDelete env.workflowOwnerRoleId).map
        (fun w => Event.deactivateWorkflow w.id), _, _, rfl, ?_, ?_⟩
      · intro e he
        obtain ⟨w, _, hwe⟩ := List.mem_map.mp he
        exact ⟨w.id, hwe.symm⟩
      · exact List.mem_map.mpr ⟨⟨W, true⟩, hWactive, rfl⟩
    · -- the owned workflow row is gone
      simp only [deleteUserRecord]
      intro w hw
      have hp := (List.mem_filter.mp hw).2
      intro hcontra
      rw [hcontra, hWinIds] at hp
      cases hp
    · -- the owned credential row is gone
      simp only [deleteUserRecord]
      intro c hc
      have hp := (List.mem_filter.mp hc).2
      intro hcontra
      rw [hcontra, hCinIds] at hp
      cases hp
    · -- the target user record is gone
      simp only [deleteUserRecord]
      intro u hu
      have hp := (List.mem_filter.mp hu).2
      simp only [Bool.not_eq_true'] at hp
      intro hcontra
      rw [hcontra] at hp
      simp at hp
  · -- failure: the deactivation call rejects and nothing is committed
    have hred := deleteUser_cascade_reduction
      { env with deactivationFails := fun _ => true } st u1 hT hneSelf hne hf1
    have hWactive1 : (⟨W, true⟩ : WorkflowRec) ∈
        activeOwnedWorkflowsOf st u1.id env.workflowOwnerRoleId := by
      rw [hu1id]
      exact hWactive
    have hany : (activeOwnedWorkflowsOf st u1.id
        ({ env with deactivationFails := fun _ => true } : DeleteEnv).workflowOwnerRoleId).any
          (fun w => ({ env with deactivationFails := fun _ => true } :
            DeleteEnv).deactivationFails w.id) = true :=
      List.any_eq_true.mpr ⟨⟨W, true⟩, hWactive1, rfl⟩
    have habort := cascadeDeleteTx_abort
      { env with deactivationFails := fun _ => true } u1.id st hany
    rw [hred, habort]
    exact ⟨rfl, rfl⟩

/-- Witness for C8 at the concrete cascade scenario. -/
theorem deleteUser_cascade_deactivation_witness :
    (cascadeScenarioStore.sharedWorkflows.map (fun l => (l.userId, l.workflowId))).Nodup ∧
    (((deleteUser { cascadeScenarioEnv with deactivationFails := fun _ => false }
        cascadeScenarioStore).result = Except.ok true ∧
      (deleteUser { cascadeScenarioEnv with deactivationFails := fun _ => false }
        cascadeScenarioStore).events.countP
          (fun e => e == Event.deactivateWorkflow "w1") = 1 ∧
      (∃ dEvts wIds cIds,
        (deleteUser { cascadeScenarioEnv with deactivationFails := fun _ => false }
          cascadeScenarioStore).events =
          dEvts ++ [Event.removeWorkflows wIds, Event.removeCredentials cIds,
            Event.deleteAuthIdentities cascadeScenarioEnv.idToDelete,
            Event.deleteUserRecord cascadeScenarioEnv.idToDelete] ∧
        (∀ e ∈ dEvts, ∃ w, e = Event.deactivateWorkflow w) ∧
        Event.deactivateWorkflow "w1" ∈ dEvts) ∧
      (∀ w ∈ (deleteUser { cascadeScenarioEnv with deactivationFails := fun _ => false }
        cascadeScenarioStore).store.workflows, w.id ≠ "w1") ∧
      (∀ c ∈ (deleteUser { cascadeScenarioEnv with deactivationFails := fun _ => false }
        cascadeScenarioStore).store.credentials, c.id ≠ "c1") ∧
      (∀ u ∈ (deleteUser { cascadeScenarioEnv with deactivationFails := fun _ => false }
        cascadeScenarioStore).store.users, u.id ≠ cascadeScenarioEnv.idToDelete)) ∧
     ((deleteUser { cascadeScenarioEnv with deactivationFails := fun _ => true }
        cascadeScenarioStore).store = cascadeScenarioStore ∧
      (deleteUser { cascadeScenarioEnv with deactivationFails := fun _ => true }
        cascadeScenarioStore).result =
          Except.error ApiError.workflowDeactivationError)) :=
  ⟨by decide,
   deleteUser_cascade_deactivation cascadeScenarioEnv cascadeScenarioStore
     ⟨"t", ⟨"global", "member"⟩, false⟩ "w1" "c1"
     rfl (by decide) rfl (by decide) rfl (by decide) rfl (by decide) rfl (by decide)⟩

end UsersCtrl
